import Mathlib

/-!
Shallow embedding of the tauri-dumper core (src/binary/mod.rs, src/binary/pe.rs,
src/binary/macho.rs, src/dumper.rs).

Machine integers are embedded as `Nat` with explicit `% 2 ^ 64` at the points
where Rust `u64`/`usize` arithmetic can wrap (release-mode wrapping semantics),
and `satAdd` models `usize::saturating_add`.  Bytes are `Nat`s below 256; the
little-endian field decode applies `% 256` to record the `u8` typing of the
mapped file.  Failure (`anyhow::Result`) is embedded as `Except String`; a Rust
panic from an out-of-bounds slice is embedded as the `Except.error` branch of
`sliceE` (the proofs
show those branches unreachable after a successful validation).  The external
brotli codec is an external collaborator, not code of this repository, so the
success of its full-decode probe is kept abstract as the `brotliOk` field of
`Dumper`; every concrete instantiation in this file is one fixed computable
predicate.
-/

/-- Embeds `usize::MAX` on the 64-bit targets the tool supports. -/
def USIZE_MAX : Nat := 2 ^ 64 - 1

/-- Embeds `usize::saturating_add`. -/
def satAdd (a b : Nat) : Nat := min (a + b) USIZE_MAX

/-- Embeds `SectionInfo` from src/binary/mod.rs: virtual address, file offset and size
of one candidate read-only data section (all `u64`). -/
structure SectionInfo where
  virtual_address : Nat
  file_offset : Nat
  size : Nat
deriving DecidableEq, Repr

/-- Embeds `ScanRange` from src/binary/mod.rs: the byte window probed for headers. -/
structure ScanRange where
  start : Nat
  length : Nat
deriving DecidableEq, Repr

/-- The containment test `va >= s.virtual_address && va < s.virtual_address + s.size`
used by both resolvers; the sum is `u64` addition, hence the `% 2 ^ 64`. -/
def sectContains (s : SectionInfo) (va : Nat) : Bool :=
  decide (s.virtual_address ≤ va) && decide (va < (s.virtual_address + s.size) % 2 ^ 64)

/-- Embeds `FixupFormat` from src/binary/macho.rs. -/
inductive FixupFormat where
  | chainedFixups
  | traditional
deriving DecidableEq, Repr

/-- Embeds `MachOParser` state: the collected sections, the detected fixup format and
the image base (fields fixed at construction by `MachOParser::new`). -/
structure MachOParser where
  sections : List SectionInfo
  fixup_format : FixupFormat
  image_base : Nat
deriving Repr

/-- Embeds `MachOParser::decode_pointer`: chained fixups keep the low 43 bits of the
raw pointer as an offset from the image base (`u64` addition wraps); the
traditional format takes the raw pointer as the virtual address itself. -/
def MachOParser.decode_pointer (m : MachOParser) (raw_ptr : Nat) : Nat :=
  match m.fixup_format with
  | .chainedFixups => (m.image_base + (raw_ptr &&& 0x7FFFFFFFFFF)) % 2 ^ 64
  | .traditional => raw_ptr

/-- Embeds `MachOParser::va_to_file_offset`: first collected section containing the
virtual address gives the translation `va - s.virtual_address + s.file_offset`. -/
def MachOParser.va_to_file_offset (m : MachOParser) (va : Nat) : Except String Nat :=
  match m.sections.find? (fun s => sectContains s va) with
  | some s => .ok ((va - s.virtual_address + s.file_offset) % 2 ^ 64)
  | none => .error "Virtual address not found in any section"

/-- Embeds `<MachOParser as BinaryParser>::resolve_pointer`. -/
def MachOParser.resolve_pointer (m : MachOParser) (raw_ptr : Nat) : Except String Nat :=
  m.va_to_file_offset (m.decode_pointer raw_ptr)

/-- Embeds `<MachOParser as BinaryParser>::scan_range`: the last collected section. -/
def MachOParser.scan_range (m : MachOParser) : Except String ScanRange :=
  match m.sections.getLast? with
  | some s => .ok ⟨s.file_offset, s.size⟩
  | none => .error "No sections found for scanning"

/-- Embeds `PeParser` state. -/
structure PeParser where
  sections : List SectionInfo
deriving Repr

/-- Embeds `PeParser::new`: fails exactly when the collected section list is empty. -/
def PeParser.new (sections : List SectionInfo) : Except String PeParser :=
  if sections.isEmpty then .error "No .rdata section found in PE file"
  else .ok ⟨sections⟩

/-- Embeds `<PeParser as BinaryParser>::resolve_pointer`: consults only the first
collected section. -/
def PeParser.resolve_pointer (p : PeParser) (raw_ptr : Nat) : Except String Nat :=
  match p.sections.head? with
  | none => .error "No sections available"
  | some sec =>
    if sectContains sec raw_ptr then
      .ok ((raw_ptr - sec.virtual_address + sec.file_offset) % 2 ^ 64)
    else
      .error "Pointer outside .rdata section bounds"

/-- Embeds `<PeParser as BinaryParser>::scan_range`: the first collected section. -/
def PeParser.scan_range (p : PeParser) : Except String ScanRange :=
  match p.sections.head? with
  | some s => .ok ⟨s.file_offset, s.size⟩
  | none => .error "No sections found for scanning"

/-- The `BinaryParser` trait object held by `Dumper`: one of the two concrete
parsers. -/
inductive BinaryParser where
  | pe (p : PeParser)
  | macho (m : MachOParser)

/-- Trait dispatch of `resolve_pointer`. -/
def BinaryParser.resolve_pointer : BinaryParser → Nat → Except String Nat
  | .pe p, raw_ptr => p.resolve_pointer raw_ptr
  | .macho m, raw_ptr => m.resolve_pointer raw_ptr

/-- Trait dispatch of `scan_range`. -/
def BinaryParser.scan_range : BinaryParser → Except String ScanRange
  | .pe p => p.scan_range
  | .macho m => m.scan_range

/-- The section list a parser's resolver is built over. -/
def BinaryParser.sectionsOf : BinaryParser → List SectionInfo
  | .pe p => p.sections
  | .macho m => m.sections

/-- The virtual address a parser derives from a raw pointer before section
lookup: PE raw pointers are already virtual addresses; Mach-O pointers go
through `decode_pointer`. -/
def BinaryParser.decodedVA : BinaryParser → Nat → Nat
  | .pe _, raw_ptr => raw_ptr
  | .macho m, raw_ptr => m.decode_pointer raw_ptr

/-!
The section-collection front end of src/binary/mod.rs.  The `object` crate's
per-section accessors are external library code; a `RawSection` records the
values they return for one section of the input file (`name()` and
`segment_name()` as `Option`s, `none` standing for the crate's `Err` case).
`collect_pe_sections` and `collect_macho_sections` are translated from the
source over that record.
-/

/-- The fragment of the object crate's `SectionKind` the code inspects. -/
inductive SectionKind where
  | readOnlyData
  | other
deriving DecidableEq, Repr, BEq

/-- One section as reported by the object crate. -/
structure RawSection where
  name : Option String
  segmentName : Option (Option String)
  kind : SectionKind
  address : Nat
  fileRange : Option (Nat × Nat)
  size : Nat
deriving DecidableEq, Repr

/-- Embeds `collect_pe_sections`: keep sections named `.rdata` of read-only-data kind
that expose a file range. -/
def collect_pe_sections (secs : List RawSection) : List SectionInfo :=
  (secs.filter (fun s =>
      s.name == some ".rdata" && s.kind == SectionKind.readOnlyData)).filterMap
    (fun s => s.fileRange.map (fun fr =>
      { virtual_address := s.address, file_offset := fr.1, size := s.size }))

/-- Embeds `collect_macho_sections`: keep sections named `__const` inside segments
`__TEXT`, `__DATA_CONST` or `__DATA` that expose a file range. -/
def collect_macho_sections (secs : List RawSection) : List SectionInfo :=
  ((secs.filter (fun s =>
      match s.segmentName with
      | some (some seg) => seg == "__TEXT" || seg == "__DATA_CONST" || seg == "__DATA"
      | _ => false)).filter (fun s => s.name == some "__const")).filterMap
    (fun s => s.fileRange.map (fun fr =>
      { virtual_address := s.address, file_offset := fr.1, size := s.size }))

/-!
The dumper (src/dumper.rs).
-/

/-- Embeds `ASSET_HEADER_SIZE`: four `u64` fields, 32 bytes. -/
def ASSET_HEADER_SIZE : Nat := 32

/-- Embeds `AssetHeader`: the four little-endian `u64` fields of one on-disk record. -/
structure AssetHeader where
  name_ptr : Nat
  name_len : Nat
  data_ptr : Nat
  data_size : Nat
deriving DecidableEq, Repr

/-- Embeds `Asset`: name and compressed data, both kept as the byte sequences read
from the file (the Rust `String` is byte-identical to the name bytes, which
`read_name` only accepts when they are ASCII). -/
structure Asset where
  name : List Nat
  data : List Nat
deriving DecidableEq, Repr

/-- Embeds `Dumper`: the mapped file, the parser chosen at construction, and the
abstract success predicate of the external brotli full-decode probe. -/
structure Dumper where
  mmap : List Nat
  parser : BinaryParser
  brotliOk : List Nat → Bool

/-- Little-endian decode of a byte list into a natural number (the
reinterpretation of 8 mapped bytes as one `u64` field on the little-endian
targets the tool supports); `% 256` records the `u8` typing of the bytes. -/
def leBytes : List Nat → Nat
  | [] => 0
  | b :: rest => b % 256 + 256 * leBytes rest

/-- The byte slice `l[off..off + len]` (total; callers guard bounds). -/
def sliceBytes (l : List Nat) (off len : Nat) : List Nat :=
  (l.drop off).take len

/-- The byte slice `l[off..off + len]` with the Rust panic on an out-of-range
slice embedded as the error branch. -/
def sliceE (l : List Nat) (off len : Nat) : Except String (List Nat) :=
  if off + len ≤ l.length then .ok (sliceBytes l off len)
  else .error "slice index out of range"

/-- Embeds `Dumper::read_header`: bounds-check, then decode the four fields from the
32 bytes at `offset`. -/
def Dumper.read_header (d : Dumper) (offset : Nat) : Except String AssetHeader :=
  if offset + ASSET_HEADER_SIZE > d.mmap.length then
    .error "Header offset out of bounds"
  else
    let chunk := sliceBytes d.mmap offset ASSET_HEADER_SIZE
    .ok { name_ptr := leBytes (sliceBytes chunk 0 8)
        , name_len := leBytes (sliceBytes chunk 8 8)
        , data_ptr := leBytes (sliceBytes chunk 16 8)
        , data_size := leBytes (sliceBytes chunk 24 8) }

/-- Embeds `Dumper::verify_brotli`: the external codec probe. -/
def Dumper.verify_brotli (d : Dumper) (data : List Nat) : Except String Unit :=
  if d.brotliOk data then .ok () else .error "Invalid brotli data"

/-- Embeds `Dumper::validate_pointers`: bounds check with saturating addition, the
leading `/` byte, then the codec probe over the data region. -/
def Dumper.validate_pointers (d : Dumper) (name_offset name_len data_offset data_size : Nat) :
    Except String Unit :=
  if d.mmap.length ≤ name_offset
      ∨ d.mmap.length < satAdd name_offset name_len
      ∨ d.mmap.length ≤ data_offset
      ∨ d.mmap.length < satAdd data_offset data_size then
    .error "Pointer out of file bounds"
  else if d.mmap.getD name_offset 0 ≠ 47 then
    .error "Invalid asset name format"
  else
    d.verify_brotli (sliceBytes d.mmap data_offset data_size)

/-- Embeds `Dumper::read_name`: slice the name region, insist on ASCII bytes (the
final `String::from_utf8` never fails on ASCII input, so the name is exactly
these bytes). -/
def Dumper.read_name (d : Dumper) (offset len : Nat) : Except String (List Nat) :=
  match sliceE d.mmap offset len with
  | .error e => .error e
  | .ok bytes =>
    if bytes.all (fun b => b < 128) then .ok bytes
    else .error "Asset name contains non-ASCII characters"

/-- Embeds `Dumper::read_data`: copy the data region out of the map. -/
def Dumper.read_data (d : Dumper) (offset len : Nat) : Except String (List Nat) :=
  sliceE d.mmap offset len

/-- Embeds `Dumper::try_parse_asset`: the `?`-chain of header decode, two pointer
resolutions, validation and the two reads. -/
def Dumper.try_parse_asset (d : Dumper) (offset : Nat) : Except String Asset :=
  match d.read_header offset with
  | .error e => .error e
  | .ok header =>
    match d.parser.resolve_pointer header.name_ptr with
    | .error e => .error e
    | .ok name_offset =>
      match d.parser.resolve_pointer header.data_ptr with
      | .error e => .error e
      | .ok data_offset =>
        match d.validate_pointers name_offset header.name_len data_offset header.data_size with
        | .error e => .error e
        | .ok _ =>
          match d.read_name name_offset header.name_len with
          | .error e => .error e
          | .ok name =>
            match d.read_data data_offset header.data_size with
            | .error e => .error e
            | .ok data => .ok { name := name, data := data }

/-- The scanning loop of `Dumper::scan_assets`: while `offset + 32 ≤ stop`,
try the candidate; a success appends the asset and fixes the step at the
header size, a failure skips by the current step.  The loop variable cannot
be made structural, so the recursion carries a fuel argument; `scanLoop_fuel`
below shows any fuel with `stop ≤ offset + fuel` computes the loop's value,
and `Dumper.scan_assets` passes such a fuel. -/
def scanLoop (d : Dumper) (stop : Nat) : Nat → Nat → Nat → List Asset
  | fuel + 1, offset, step =>
    if offset + ASSET_HEADER_SIZE ≤ stop then
      match d.try_parse_asset offset with
      | .ok a => a :: scanLoop d stop fuel (offset + ASSET_HEADER_SIZE) ASSET_HEADER_SIZE
      | .error _ => scanLoop d stop fuel (offset + step) step
    else []
  | 0, _, _ => []

/-- Embeds `Dumper::scan_assets`: take the parser's scan range, compute the window
end with saturating addition, abort on the `assert!` if the end exceeds the
mapped length, else run the loop from the window start with initial step 8. -/
def Dumper.scan_assets (d : Dumper) : Except String (List Asset) :=
  match d.parser.scan_range with
  | .error e => .error e
  | .ok range =>
    let stop := satAdd range.start range.length
    if stop ≤ d.mmap.length then
      .ok (scanLoop d stop stop range.start 8)
    else
      .error "Scan range exceeds file bounds"

/-!
The two-state scanning machine the specification describes (§4.3): state
Probing strides 8 bytes, state Aligned strides the 32-byte record size, and
any successful match switches to Aligned.  This definition follows the spec's
words; the refinement theorem for C5 identifies it with `scanLoop`.
-/

/-- The spec's scanner state. -/
inductive ScanState where
  | probing
  | aligned
deriving DecidableEq, Repr

/-- The spec's stride for each state. -/
def ScanState.stride : ScanState → Nat
  | .probing => 8
  | .aligned => 32

/-- The spec's two-state scan machine over the window `[.., stop)`, with the
same fuel convention as `scanLoop`. -/
def scanMachine (d : Dumper) (stop : Nat) : Nat → Nat → ScanState → List Asset
  | fuel + 1, offset, st =>
    if offset + 32 ≤ stop then
      match d.try_parse_asset offset with
      | .ok a => a :: scanMachine d stop fuel (offset + ScanState.aligned.stride) .aligned
      | .error _ => scanMachine d stop fuel (offset + st.stride) st
    else []
  | 0, _, _ => []


/-- A traditional Mach-O parser state with two overlapping collected sections
mapping the same virtual addresses to different file offsets. -/
def machoOverlap : MachOParser :=
  ⟨[⟨0, 0, 100⟩, ⟨0, 1000, 100⟩], .traditional, 0⟩

/-- A `.rdata` read-only-data section of size 0 as reported by the object
crate. -/
def rdataEmpty : RawSection :=
  ⟨some ".rdata", none, .readOnlyData, 0x1000, some (0x400, 0x200), 0⟩

/-- A `__TEXT,__const` section as reported by the object crate. -/
def textConst : RawSection :=
  ⟨some "__const", some (some "__TEXT"), .other, 0x100, some (0x80, 16), 16⟩

/-- A `__DATA_CONST,__const` section as reported by the object crate. -/
def dataConst : RawSection :=
  ⟨some "__const", some (some "__DATA_CONST"), .other, 0x200, some (0x180, 64), 64⟩

/-!
Concrete instances.  `mmap0` is a 96-byte Mach-O-style image: two 32-byte
asset headers at file offsets 0 and 32 (fields little-endian), a name region
at 64 and a one-byte data region at 67.  The parser state maps virtual
addresses 100..131 to file offsets 64..95 through the first section and
virtual addresses 0..63 to file offsets 0..63 through the second (the scan
window).  The concrete codec probe accepts exactly the byte string `[0x3B]`,
which the brotli format defines as an empty stream (a last, empty
metablock), so a real brotli decoder accepts it as well. -/
def mmap0 : List Nat :=
  [100, 0, 0, 0, 0, 0, 0, 0,
   3, 0, 0, 0, 0, 0, 0, 0,
   103, 0, 0, 0, 0, 0, 0, 0,
   1, 0, 0, 0, 0, 0, 0, 0,
   100, 0, 0, 0, 0, 0, 0, 0,
   0, 0, 0, 0, 0, 0, 0, 0,
   103, 0, 0, 0, 0, 0, 0, 0,
   1, 0, 0, 0, 0, 0, 0, 0,
   47, 0, 97, 59, 0, 0, 0, 0,
   0, 0, 0, 0, 0, 0, 0, 0,
   0, 0, 0, 0, 0, 0, 0, 0,
   0, 0, 0, 0, 0, 0, 0, 0]

/-- A dumper over `mmap0` with a traditional Mach-O parser; header 0 names
the three bytes `/\x00a` (a NUL byte inside the name) and header 32 names the
empty byte string. -/
def d0 : Dumper :=
  { mmap := mmap0
  , parser := .macho ⟨[⟨100, 64, 32⟩, ⟨0, 0, 64⟩], .traditional, 0x100000000⟩
  , brotliOk := fun data => data == [59] }

/-- A dumper whose parser reports a 100-byte scan window over a 10-byte file. -/
def d8 : Dumper :=
  { mmap := List.replicate 10 0
  , parser := .macho ⟨[⟨0, 0, 100⟩], .traditional, 0x100000000⟩
  , brotliOk := fun _ => false }

/-!
Resolver lemmas and the claims about pointer resolution.
-/

/-- Decidable equality of `Except` results, for evaluating resolver and scan
outcomes on concrete inputs. -/
instance {ε α : Type} [DecidableEq ε] [DecidableEq α] : DecidableEq (Except ε α) :=
  fun a b =>
    match a, b with
    | .ok x, .ok y =>
      if h : x = y then .isTrue (by rw [h]) else .isFalse (by intro hh; cases hh; exact h rfl)
    | .error e, .error f =>
      if h : e = f then .isTrue (by rw [h]) else .isFalse (by intro hh; cases hh; exact h rfl)
    | .ok _, .error _ => .isFalse (by intro hh; cases hh)
    | .error _, .ok _ => .isFalse (by intro hh; cases hh)

/-- Lemma: `List.find?` returns the element at the first index whose test passes. -/
lemma find_first {α : Type} (p : α → Bool) :
    ∀ (l : List α) (i : Nat) (hi : i < l.length),
      p (l.get ⟨i, hi⟩) = true →
      (∀ j (hj : j < i), p (l.get ⟨j, Nat.lt_trans hj hi⟩) = false) →
      l.find? p = some (l.get ⟨i, hi⟩) := by
  intro l
  induction l with
  | nil => intro i hi; exact absurd hi (by simp)
  | cons x xs ih =>
    intro i hi hp hfirst
    cases i with
    | zero =>
      simp only [List.get] at hp
      simp [List.find?, hp]
    | succ n =>
      have hx : p x = false := hfirst 0 (Nat.succ_pos n)
      have hn : n < xs.length := by simpa using hi
      have hp2 : p (xs.get ⟨n, hn⟩) = true := hp
      have hfirst2 : ∀ j (hj : j < n), p (xs.get ⟨j, Nat.lt_trans hj hn⟩) = false := by
        intro j hj
        exact hfirst (j + 1) (Nat.succ_lt_succ hj)
      simp only [List.find?, hx]
      exact ih n hn hp2 hfirst2

/-- C2: with chained fixups, the decoded virtual address is the image base
plus the low 43 bits of the raw pointer (u64 addition), all metadata bits
discarded, and pointer resolution applies the section lookup to exactly that
address. -/
theorem chained_decode_low43 (m : MachOParser) (p : Nat)
    (h : m.fixup_format = .chainedFixups) :
    m.decode_pointer p = (m.image_base + p % 2 ^ 43) % 2 ^ 64 ∧
    BinaryParser.resolve_pointer (.macho m) p
      = m.va_to_file_offset ((m.image_base + p % 2 ^ 43) % 2 ^ 64) := by
  have hmask : p &&& 0x7FFFFFFFFFF = p % 2 ^ 43 := by
    have h43 : (0x7FFFFFFFFFF : Nat) = 2 ^ 43 - 1 := by norm_num
    rw [h43, Nat.and_pow_two_sub_one_eq_mod]
  have hdec : m.decode_pointer p = (m.image_base + p % 2 ^ 43) % 2 ^ 64 := by
    unfold MachOParser.decode_pointer
    rw [h, hmask]
  refine ⟨hdec, ?_⟩
  show m.resolve_pointer p = _
  unfold MachOParser.resolve_pointer
  rw [hdec]

/-- Witness for C2 at a concrete parser state and raw pointer. -/
theorem chained_decode_low43_witness :
    MachOParser.decode_pointer ⟨[], .chainedFixups, 0x100000000⟩ 0x8011223344556677
      = (0x100000000 + 0x8011223344556677 % 2 ^ 43) % 2 ^ 64 ∧
    BinaryParser.resolve_pointer (.macho ⟨[], .chainedFixups, 0x100000000⟩) 0x8011223344556677
      = MachOParser.va_to_file_offset ⟨[], .chainedFixups, 0x100000000⟩
          ((0x100000000 + 0x8011223344556677 % 2 ^ 43) % 2 ^ 64) :=
  chained_decode_low43 ⟨[], .chainedFixups, 0x100000000⟩ 0x8011223344556677 rfl

/-- C3 (amended): with the traditional format, a pointer contained in some
collected section resolves through the FIRST containing section in the list;
for that section `s` the result is `p - s.virtual_address + s.file_offset`
(u64 arithmetic). -/
theorem traditional_resolve_first_section (m : MachOParser) (p : Nat) (i : Nat)
    (hfmt : m.fixup_format = .traditional)
    (hi : i < m.sections.length)
    (hc : sectContains (m.sections.get ⟨i, hi⟩) p = true)
    (hfirst : ∀ j (hj : j < i),
      sectContains (m.sections.get ⟨j, Nat.lt_trans hj hi⟩) p = false) :
    BinaryParser.resolve_pointer (.macho m) p =
      .ok ((p - (m.sections.get ⟨i, hi⟩).virtual_address
            + (m.sections.get ⟨i, hi⟩).file_offset) % 2 ^ 64) := by
  have hdec : m.decode_pointer p = p := by
    unfold MachOParser.decode_pointer
    rw [hfmt]
  show m.resolve_pointer p = _
  unfold MachOParser.resolve_pointer
  rw [hdec]
  unfold MachOParser.va_to_file_offset
  rw [find_first (fun s => sectContains s p) m.sections i hi hc hfirst]

/-- Counterexample to C3 as stated: virtual address 5 lies inside the second
collected section ⟨va 0, file offset 1000, size 100⟩, yet resolution does not
return `5 - 0 + 1000 = 1005`; it returns 5, the translation through the first
containing section. -/
theorem traditional_resolve_counterexample :
    machoOverlap.fixup_format = .traditional ∧
    (⟨0, 1000, 100⟩ : SectionInfo) ∈ machoOverlap.sections ∧
    sectContains ⟨0, 1000, 100⟩ 5 = true ∧
    BinaryParser.resolve_pointer (.macho machoOverlap) 5 ≠ .ok ((5 - 0 + 1000) % 2 ^ 64) ∧
    BinaryParser.resolve_pointer (.macho machoOverlap) 5 = .ok 5 := by
  decide

/-- Witness for C3 (amended) at a concrete parser state, index and pointer. -/
theorem traditional_resolve_first_section_witness :
    BinaryParser.resolve_pointer (.macho machoOverlap) 5 =
      .ok ((5 - (machoOverlap.sections.get ⟨0, by decide⟩).virtual_address
            + (machoOverlap.sections.get ⟨0, by decide⟩).file_offset) % 2 ^ 64) :=
  traditional_resolve_first_section machoOverlap 5 0 rfl (by decide) (by decide)
    (fun j hj => absurd hj (Nat.not_lt_zero j))

/-- C4: whenever the decoded virtual address of a raw pointer is contained in
no known section, `resolve_pointer` fails; this covers the PE resolver and
both Mach-O variants, so resolution never succeeds outside all known
sections. -/
theorem resolve_outside_sections_fails (P : BinaryParser) (p : Nat)
    (h : ∀ s ∈ P.sectionsOf, sectContains s (P.decodedVA p) = false) :
    (P.resolve_pointer p).isOk = false := by
  cases P with
  | pe pp =>
    show (pp.resolve_pointer p).isOk = false
    unfold PeParser.resolve_pointer
    cases hh : pp.sections.head? with
    | none => rfl
    | some sec =>
      have hmem : sec ∈ pp.sections := List.mem_of_mem_head? (by rw [hh]; rfl)
      have hs : sectContains sec p = false := h sec hmem
      simp only [hs, Bool.false_eq_true, if_false]
      rfl
  | macho m =>
    show (m.resolve_pointer p).isOk = false
    unfold MachOParser.resolve_pointer MachOParser.va_to_file_offset
    have hnone : m.sections.find? (fun s => sectContains s (m.decode_pointer p)) = none :=
      List.find?_eq_none.mpr (fun s hs => by
        have := h s hs
        simp only [BinaryParser.decodedVA] at this
        simp [this])
    rw [hnone]
    rfl

/-!
Claims about section collection: PE construction and the Mach-O scan window.
-/

/-- C7 (amended): PE parser construction fails exactly when the collected
`.rdata` section list is empty; neither multiplicity nor emptiness of the
section is checked. -/
theorem pe_new_fails_iff_empty (secs : List RawSection) :
    (PeParser.new (collect_pe_sections secs)).isOk = !(collect_pe_sections secs).isEmpty := by
  unfold PeParser.new
  cases h : (collect_pe_sections secs).isEmpty with
  | true => simp only [h, if_true]; rfl
  | false => simp only [h, Bool.false_eq_true, if_false]; rfl

/-- Counterexample to C7 as stated: an input with two collected `.rdata`
read-only-data sections, both of size 0, on which PE parser construction
nevertheless succeeds. -/
theorem pe_new_counterexample :
    (collect_pe_sections [rdataEmpty, rdataEmpty]).length = 2 ∧
    (∀ s ∈ collect_pe_sections [rdataEmpty, rdataEmpty], s.size = 0) ∧
    (PeParser.new (collect_pe_sections [rdataEmpty, rdataEmpty])).isOk = true := by
  decide

/-- C9: the Mach-O scan window is exactly the file offset (as start) and size
(as length) of the last section in the list collected from the `__const`
sections of segments `__TEXT`, `__DATA_CONST` and `__DATA`. -/
theorem macho_scan_range_last (secs : List RawSection) (fmt : FixupFormat) (ib : Nat)
    (s : SectionInfo)
    (hlast : (collect_macho_sections secs).getLast? = some s) :
    BinaryParser.scan_range (.macho ⟨collect_macho_sections secs, fmt, ib⟩) =
      .ok ⟨s.file_offset, s.size⟩ := by
  show MachOParser.scan_range _ = _
  unfold MachOParser.scan_range
  simp only [hlast]

/-- Witness for C9: on a file with a `__TEXT,__const` and a
`__DATA_CONST,__const` section, the scan window is the latter's file offset
and size. -/
theorem macho_scan_range_last_witness :
    BinaryParser.scan_range
        (.macho ⟨collect_macho_sections [textConst, dataConst], .traditional, 0x100000000⟩) =
      .ok ⟨0x180, 64⟩ :=
  macho_scan_range_last [textConst, dataConst] .traditional 0x100000000
    ⟨0x200, 0x180, 64⟩ (by decide)

/-!
Scan-loop lemmas.
-/

/-- The value of the loop does not depend on the fuel, as long as the fuel
covers the remaining window (`stop ≤ offset + fuel`) and the step is
positive: the loop's only real exit is `offset + 32 > stop`. -/
lemma scanLoop_fuel (d : Dumper) (stop : Nat) :
    ∀ fuel1 fuel2 offset step, 1 ≤ step → stop ≤ offset + fuel1 → stop ≤ offset + fuel2 →
      scanLoop d stop fuel1 offset step = scanLoop d stop fuel2 offset step := by
  intro fuel1
  induction fuel1 with
  | zero =>
    intro fuel2 offset step hs h1 h2
    cases fuel2 with
    | zero => rfl
    | succ g =>
      simp only [scanLoop]
      rw [if_neg (by simp only [ASSET_HEADER_SIZE]; omega)]
  | succ f ih =>
    intro fuel2 offset step hs h1 h2
    cases fuel2 with
    | zero =>
      simp only [scanLoop]
      rw [if_neg (by simp only [ASSET_HEADER_SIZE]; omega)]
    | succ g =>
      simp only [scanLoop]
      by_cases hc : offset + ASSET_HEADER_SIZE ≤ stop
      · rw [if_pos hc, if_pos hc]
        have hsz : ASSET_HEADER_SIZE = 32 := rfl
        cases htp : d.try_parse_asset offset with
        | ok a =>
          rw [ih g (offset + ASSET_HEADER_SIZE) ASSET_HEADER_SIZE (by omega)
            (by omega) (by omega)]
        | error e =>
          rw [ih g (offset + step) step hs (by omega) (by omega)]
      · rw [if_neg hc, if_neg hc]

/-- Every asset produced by the loop comes from a successful
`try_parse_asset` at some offset. -/
lemma mem_scanLoop (d : Dumper) (stop : Nat) :
    ∀ fuel offset step a, a ∈ scanLoop d stop fuel offset step →
      ∃ o, d.try_parse_asset o = .ok a := by
  intro fuel
  induction fuel with
  | zero => intro offset step a h; simp [scanLoop] at h
  | succ f ih =>
    intro offset step a h
    simp only [scanLoop] at h
    by_cases hc : offset + ASSET_HEADER_SIZE ≤ stop
    · rw [if_pos hc] at h
      cases htp : d.try_parse_asset offset with
      | ok b =>
        rw [htp] at h
        rcases List.mem_cons.mp h with h | h
        · exact ⟨offset, by rw [htp, h]⟩
        · exact ih _ _ _ h
      | error e =>
        rw [htp] at h
        exact ih _ _ _ h
    · rw [if_neg hc] at h
      simp at h

/-- Facts provided by a successful `validate_pointers`: both regions are
bounds-checked (saturating addition), the byte at the name offset is `/`, and
the data region passes the codec probe. -/
lemma validate_pointers_ok (d : Dumper) (nOff nLen dOff dLen : Nat)
    (h : d.validate_pointers nOff nLen dOff dLen = .ok ()) :
    nOff < d.mmap.length ∧ satAdd nOff nLen ≤ d.mmap.length ∧
    dOff < d.mmap.length ∧ satAdd dOff dLen ≤ d.mmap.length ∧
    d.mmap.getD nOff 0 = 47 ∧
    d.brotliOk (sliceBytes d.mmap dOff dLen) = true := by
  unfold Dumper.validate_pointers at h
  by_cases h1 : d.mmap.length ≤ nOff ∨ d.mmap.length < satAdd nOff nLen
      ∨ d.mmap.length ≤ dOff ∨ d.mmap.length < satAdd dOff dLen
  · rw [if_pos h1] at h
    exact Except.noConfusion h
  · rw [if_neg h1] at h
    push_neg at h1
    obtain ⟨hb1, hb2, hb3, hb4⟩ := h1
    by_cases h2 : d.mmap.getD nOff 0 ≠ 47
    · rw [if_pos h2] at h
      exact Except.noConfusion h
    · rw [if_neg h2] at h
      push_neg at h2
      unfold Dumper.verify_brotli at h
      by_cases h3 : d.brotliOk (sliceBytes d.mmap dOff dLen) = true
      · exact ⟨hb1, Nat.le_of_lt_succ (Nat.lt_succ_of_le hb2), hb3,
          Nat.le_of_lt_succ (Nat.lt_succ_of_le hb4), h2, h3⟩
      · rw [if_neg h3] at h
        exact Except.noConfusion h

/-- A successful `read_name` returns exactly the bytes of the name region,
and they are all ASCII. -/
lemma read_name_ok (d : Dumper) (off len : Nat) (name : List Nat)
    (h : d.read_name off len = .ok name) :
    name = sliceBytes d.mmap off len ∧ name.all (fun b => b < 128) = true := by
  unfold Dumper.read_name sliceE at h
  by_cases hb : off + len ≤ d.mmap.length
  · rw [if_pos hb] at h
    by_cases ha : (sliceBytes d.mmap off len).all (fun b => decide (b < 128)) = true
    · simp only [ha, if_true] at h
      injection h with h2
      exact ⟨h2.symm, h2 ▸ ha⟩
    · simp only [ha, Bool.false_eq_true, if_false] at h
      exact Except.noConfusion h
  · rw [if_neg hb] at h
    exact Except.noConfusion h

/-- A successful `read_data` returns exactly the bytes of the data region. -/
lemma read_data_ok (d : Dumper) (off len : Nat) (data : List Nat)
    (h : d.read_data off len = .ok data) :
    data = sliceBytes d.mmap off len := by
  unfold Dumper.read_data sliceE at h
  by_cases hb : off + len ≤ d.mmap.length
  · rw [if_pos hb] at h
    injection h with h2
    exact h2.symm
  · rw [if_neg hb] at h
    exact Except.noConfusion h

/-- A successful `try_parse_asset` went through validation and the two reads
with one consistent set of resolved offsets and lengths. -/
lemma try_parse_shape (d : Dumper) (offset : Nat) (a : Asset)
    (h : d.try_parse_asset offset = .ok a) :
    ∃ nOff nLen dOff dLen,
      d.validate_pointers nOff nLen dOff dLen = .ok () ∧
      d.read_name nOff nLen = .ok a.name ∧
      d.read_data dOff dLen = .ok a.data := by
  unfold Dumper.try_parse_asset at h
  cases hh : d.read_header offset with
  | error e => rw [hh] at h; exact Except.noConfusion h
  | ok header =>
    rw [hh] at h
    simp only at h
    cases hn : d.parser.resolve_pointer header.name_ptr with
    | error e => rw [hn] at h; exact Except.noConfusion h
    | ok nOff =>
      rw [hn] at h
      simp only at h
      cases hd : d.parser.resolve_pointer header.data_ptr with
      | error e => rw [hd] at h; exact Except.noConfusion h
      | ok dOff =>
        rw [hd] at h
        simp only at h
        cases hv : d.validate_pointers nOff header.name_len dOff header.data_size with
        | error e => rw [hv] at h; exact Except.noConfusion h
        | ok u =>
          rw [hv] at h
          simp only at h
          cases hname : d.read_name nOff header.name_len with
          | error e => rw [hname] at h; exact Except.noConfusion h
          | ok name =>
            rw [hname] at h
            simp only at h
            cases hdata : d.read_data dOff header.data_size with
            | error e => rw [hdata] at h; exact Except.noConfusion h
            | ok data =>
              rw [hdata] at h
              simp only at h
              injection h with h2
              refine ⟨nOff, header.name_len, dOff, header.data_size, ?_, ?_, ?_⟩
              · cases u
                exact hv
              · rw [← h2]
                exact hname
              · rw [← h2]
                exact hdata

/-- The invariants any successfully parsed asset satisfies: ASCII-only name,
probe-passing data, and a leading `/` whenever the name is nonempty. -/
lemma try_parse_props (d : Dumper) (offset : Nat) (a : Asset)
    (h : d.try_parse_asset offset = .ok a) :
    a.name.all (fun b => b < 128) = true ∧
    d.brotliOk a.data = true ∧
    (a.name ≠ [] → a.name.head? = some 47) := by
  obtain ⟨nOff, nLen, dOff, dLen, hv, hname, hdata⟩ := try_parse_shape d offset a h
  obtain ⟨hb1, _, _, _, hslash, hprobe⟩ := validate_pointers_ok d nOff nLen dOff dLen hv
  obtain ⟨hnameeq, hascii⟩ := read_name_ok d nOff nLen a.name hname
  have hdataeq := read_data_ok d dOff dLen a.data hdata
  refine ⟨hascii, by rw [hdataeq]; exact hprobe, ?_⟩
  intro hne
  have hcons : d.mmap.drop nOff = d.mmap[nOff] :: d.mmap.drop (nOff + 1) :=
    List.drop_eq_getElem_cons hb1
  have hx : d.mmap[nOff] = 47 := by
    have := d.mmap.getD_eq_getElem?_getD nOff 0
    rw [List.getElem?_eq_getElem hb1] at this
    rw [hslash] at this
    exact (Option.getD_some).symm.trans this.symm
  cases nLen with
  | zero =>
    exact absurd (by rw [hnameeq]; rfl) hne
  | succ k =>
    rw [hnameeq]
    unfold sliceBytes
    rw [hcons, List.take_succ_cons, hx]
    rfl

/-- Saturating addition below a bound strictly under `usize::MAX` is exact. -/
lemma satAdd_le_of_lt_max (a b n : Nat) (h : satAdd a b ≤ n) (hn : n < USIZE_MAX) :
    a + b ≤ n := by
  unfold satAdd at h
  rcases Nat.le_total (a + b) USIZE_MAX with hle | hle
  · rwa [Nat.min_eq_left hle] at h
  · rw [Nat.min_eq_right hle] at h
    omega

/-- C1 (amended): every asset returned by a successful scan has an all-ASCII
name (which permits NUL bytes, NUL being ASCII) and data passing the codec
probe, and whenever its name is nonempty the name begins with `/`. -/
theorem scan_asset_invariants (d : Dumper) (assets : List Asset)
    (h : d.scan_assets = .ok assets) :
    ∀ a ∈ assets, a.name.all (fun b => b < 128) = true ∧
      d.brotliOk a.data = true ∧
      (a.name ≠ [] → a.name.head? = some 47) := by
  intro a ha
  unfold Dumper.scan_assets at h
  cases hr : d.parser.scan_range with
  | error e =>
    rw [hr] at h
    exact Except.noConfusion h
  | ok range =>
    rw [hr] at h
    simp only at h
    by_cases hb : satAdd range.start range.length ≤ d.mmap.length
    · rw [if_pos hb] at h
      injection h with h2
      rw [← h2] at ha
      obtain ⟨o, ho⟩ := mem_scanLoop d _ _ _ _ a ha
      exact try_parse_props d o a ho
    · rw [if_neg hb] at h
      exact Except.noConfusion h

/-- The scanning loop is the spec's two-state machine: stride 8 in Probing,
stride 32 in Aligned, switching to Aligned at any success. -/
lemma scanLoop_eq_machine (d : Dumper) (stop : Nat) :
    ∀ fuel offset st,
      scanLoop d stop fuel offset (ScanState.stride st) = scanMachine d stop fuel offset st := by
  intro fuel
  induction fuel with
  | zero => intro offset st; rfl
  | succ f ih =>
    intro offset st
    simp only [scanLoop, scanMachine, ASSET_HEADER_SIZE]
    by_cases hc : offset + 32 ≤ stop
    · rw [if_pos hc, if_pos hc]
      cases htp : d.try_parse_asset offset with
      | ok a =>
        exact congrArg (a :: ·) (ih (offset + 32) .aligned)
      | error e =>
        exact ih (offset + ScanState.stride st) st
    · rw [if_neg hc, if_neg hc]

/-- C5: a successful scan is exactly one run of the two-state probing machine
over the window: candidates advance by stride 8 until the first success, by
the 32-byte record size for the whole remainder after any success, never
revisit an offset, stop only at the window end, and append assets in
discovery order. -/
theorem scan_assets_two_state_machine (d : Dumper) (range : ScanRange)
    (h1 : d.parser.scan_range = .ok range)
    (h2 : satAdd range.start range.length ≤ d.mmap.length) :
    d.scan_assets = .ok (scanMachine d (satAdd range.start range.length)
      (satAdd range.start range.length) range.start .probing) := by
  unfold Dumper.scan_assets
  rw [h1]
  simp only
  rw [if_pos h2]
  exact congrArg Except.ok (scanLoop_eq_machine d _ _ range.start .probing)

/-- C6: a candidate at which parsing or validation fails is skipped locally
(the loop from a failing offset equals the loop from the next stride
position), and the scan as a whole still returns a success to the caller
whenever its window is well formed. -/
theorem failed_candidate_skipped (d : Dumper) (stop fuel offset step : Nat) (e : String)
    (range : ScanRange) :
    (d.try_parse_asset offset = .error e → offset + 32 ≤ stop → 1 ≤ step →
      stop ≤ offset + fuel →
      scanLoop d stop fuel offset step = scanLoop d stop fuel (offset + step) step) ∧
    (d.parser.scan_range = .ok range → satAdd range.start range.length ≤ d.mmap.length →
      (d.scan_assets).isOk = true) := by
  constructor
  · intro htp hc hs hf
    cases fuel with
    | zero => omega
    | succ f =>
      have hstep1 : scanLoop d stop (f + 1) offset step
          = scanLoop d stop f (offset + step) step := by
        simp only [scanLoop, ASSET_HEADER_SIZE]
        rw [if_pos hc, htp]
      rw [hstep1]
      exact scanLoop_fuel d stop f (f + 1) (offset + step) step hs (by omega) (by omega)
  · intro hr hb
    unfold Dumper.scan_assets
    rw [hr]
    simp only
    rw [if_pos hb]
    rfl

/-- C8: when the configured window end (start plus length, saturating) exceeds
the mapped file length, the scan aborts with a fatal error before probing any
candidate, instead of truncating the window. -/
theorem scan_range_exceeds_aborts (d : Dumper) (range : ScanRange)
    (h1 : d.parser.scan_range = .ok range)
    (h2 : d.mmap.length < satAdd range.start range.length) :
    d.scan_assets = .error "Scan range exceeds file bounds" := by
  unfold Dumper.scan_assets
  rw [h1]
  simp only
  rw [if_neg (by omega)]

/-- C10: after a successful validation (on a mapped file below `usize::MAX`
bytes, so saturation is exact), the name-region slice taken by `read_name` and
the data-region read of `read_data` are both within the file's bounds: the
panic branch of either slice is unreachable in `try_parse_asset`. -/
theorem validated_reads_in_bounds (d : Dumper) (nOff nLen dOff dLen : Nat)
    (h : d.validate_pointers nOff nLen dOff dLen = .ok ())
    (hm : d.mmap.length < USIZE_MAX) :
    (sliceE d.mmap nOff nLen).isOk = true ∧ (d.read_data dOff dLen).isOk = true := by
  obtain ⟨h1, h2, h3, h4, _, _⟩ := validate_pointers_ok d nOff nLen dOff dLen h
  have hn : nOff + nLen ≤ d.mmap.length := satAdd_le_of_lt_max _ _ _ h2 hm
  have hd : dOff + dLen ≤ d.mmap.length := satAdd_le_of_lt_max _ _ _ h4 hm
  constructor
  · unfold sliceE
    rw [if_pos hn]
    rfl
  · unfold Dumper.read_data sliceE
    rw [if_pos hd]
    rfl

/-- Counterexample to C1 as stated: the scan of `d0` succeeds and returns an
asset whose name `[47, 0, 97]` contains a NUL byte and an asset whose (empty)
name does not begin with `/`. -/
theorem scan_asset_counterexample :
    d0.scan_assets = .ok [⟨[47, 0, 97], [59]⟩, ⟨[], [59]⟩] ∧
    (0 ∈ (Asset.mk [47, 0, 97] [59]).name) ∧
    (Asset.mk [] [59]).name.head? ≠ some 47 := by
  decide

/-- Witness for C1 (amended) at the first asset returned by scanning `d0`. -/
theorem scan_asset_invariants_witness :
    (Asset.mk [47, 0, 97] [59]).name.all (fun b => b < 128) = true ∧
    d0.brotliOk (Asset.mk [47, 0, 97] [59]).data = true ∧
    ((Asset.mk [47, 0, 97] [59]).name ≠ [] →
      (Asset.mk [47, 0, 97] [59]).name.head? = some 47) :=
  scan_asset_invariants d0 [⟨[47, 0, 97], [59]⟩, ⟨[], [59]⟩] (by decide)
    (Asset.mk [47, 0, 97] [59]) (by decide)

/-- Witness for C4 at a PE parser whose single section excludes the pointer. -/
theorem resolve_outside_sections_fails_witness :
    (BinaryParser.resolve_pointer (.pe ⟨[⟨1000, 0, 10⟩]⟩) 5).isOk = false :=
  resolve_outside_sections_fails (.pe ⟨[⟨1000, 0, 10⟩]⟩) 5 (by decide)

/-- Witness for C5: scanning `d0` is one run of the two-state machine. -/
theorem scan_assets_two_state_machine_witness :
    d0.scan_assets = .ok (scanMachine d0 (satAdd 0 64) (satAdd 0 64) 0 .probing) :=
  scan_assets_two_state_machine d0 ⟨0, 64⟩ (by decide) (by decide)

/-- Witness for C6 at the failing candidate of `d0` at offset 8 (its resolved
name region exceeds the file bounds). -/
theorem failed_candidate_skipped_witness :
    (scanLoop d0 64 64 8 8 = scanLoop d0 64 64 16 8) ∧
    (d0.scan_assets).isOk = true :=
  ⟨(failed_candidate_skipped d0 64 64 8 8 "Pointer out of file bounds" ⟨0, 64⟩).1
      (by decide) (by decide) (by decide) (by decide),
   (failed_candidate_skipped d0 64 64 8 8 "Pointer out of file bounds" ⟨0, 64⟩).2
      (by decide) (by decide)⟩

/-- Witness for C8: the malformed window of `d8` aborts the scan. -/
theorem scan_range_exceeds_aborts_witness :
    d8.scan_assets = .error "Scan range exceeds file bounds" :=
  scan_range_exceeds_aborts d8 ⟨0, 100⟩ (by decide) (by decide)

/-- Witness for C10 at the validated first header of `d0`. -/
theorem validated_reads_in_bounds_witness :
    (sliceE d0.mmap 64 3).isOk = true ∧ (d0.read_data 67 1).isOk = true :=
  validated_reads_in_bounds d0 64 3 67 1 (by decide) (by decide)
